import Mathlib

/-!
# Immutable audit log: the order-management client and its hash-chained ledger

The client program (`main.cpp`) talks to a database through prepared
statements.  Every mutation of `app_order` is recorded, inside the same
transaction, as one entry of the table `audit_log`; the entries are chained
by digests and the chain is checked by the stored function
`audit_verify_chain()`.

The functions of `main.cpp` are embedded as state-passing functions over an
explicit database state.  The database-side code (the digest, the append that
a mutation triggers, and the chain check) is not part of `main.cpp`; it is
modelled from the specification and marked as such.
-/

namespace AuditLog

/-! ## Data model -/

/-- The six content fields of an audit entry, the input of the digest. -/
structure EntryFields where
  sequence : Nat
  timestamp : String
  actor : String
  action : String
  entity : String
  entity_id : String
  deriving DecidableEq

/-- A row of `audit_log`: the six content fields (`log_id`, `ts`, `actor`,
`action`, `entity`, `entity_id`) and the two digests that chain it. -/
structure ChainEntry (D : Type) where
  sequence : Nat
  timestamp : String
  actor : String
  action : String
  entity : String
  entity_id : String
  prev_digest : D
  self_digest : D
  deriving DecidableEq

/-- The content fields of a stored entry. -/
def ChainEntry.fields {D : Type} (e : ChainEntry D) : EntryFields :=
  { sequence := e.sequence, timestamp := e.timestamp, actor := e.actor,
    action := e.action, entity := e.entity, entity_id := e.entity_id }

/-- Modelled from the spec: the DigestEngine of section 4.1, which is database-side
code absent from `main.cpp`.  `digest fields prev` is the digest of an entry's
content fields and its predecessor's digest; `genesis` is the fixed value
used as `prev_digest` of the first entry.  The digest values are kept
abstract (a type `D`), the algorithm being a parameter. -/
structure DigestEngine (D : Type) where
  genesis : D
  digest : EntryFields → D → D

/-- The result of the chain check: `VerificationResult{ok, first_broken_sequence}`. -/
structure VerificationResult where
  ok : Bool
  first_broken_sequence : Option Nat
  deriving DecidableEq

/-- The C++ `double` amount is only passed through to the statement. -/
abbrev Amount := Int

/-- A row of the business table `app_order`. -/
structure Order where
  order_id : Int
  customer_name : String
  amount_npr : Amount
  status : String
  deriving DecidableEq

/-- The database behind the connection: the business table, the ledger and
the generator of `order_id`. -/
structure Db (D : Type) where
  app_order : List Order
  audit_log : List (ChainEntry D)
  next_order_id : Int
  deriving DecidableEq

/-- The database in which nothing has happened yet. -/
def Db.empty {D : Type} : Db D :=
  { app_order := [], audit_log := [], next_order_id := 1 }

/-! ## The ledger (database side) -/

/-- The clause `ORDER BY log_id` of the query of `viewAuditLogs`: the rows in
ascending `log_id` (the entry's sequence). -/
def order_by_log_id {D : Type} (rows : List (ChainEntry D)) : List (ChainEntry D) :=
  rows.insertionSort (fun a b => a.sequence ≤ b.sequence)

/-- Modelled from the spec: `read_all` of section 4.2 (database-side, absent
from `main.cpp`): the stored entries in ascending `sequence` order. -/
def read_all {D : Type} (ledger : List (ChainEntry D)) : List (ChainEntry D) :=
  order_by_log_id ledger

/-- Modelled from the spec: `append` of section 4.2, the audit append that
every business mutation triggers (database-side, absent from `main.cpp`).  The
sequence is the last sequence plus one (1 for the empty ledger), `prev_digest`
is the last entry's `self_digest` (the genesis constant for the empty ledger),
the timestamp is the time of the call, and `self_digest` comes from the
digest engine. -/
def append_event {D : Type} (E : DigestEngine D) (ledger : List (ChainEntry D))
    (now actor action entity entity_id : String) : List (ChainEntry D) :=
  let last := (read_all ledger).getLast?
  let sequence := match last with
    | none => 1
    | some l => l.sequence + 1
  let prev_digest := match last with
    | none => E.genesis
    | some l => l.self_digest
  let fields : EntryFields :=
    { sequence := sequence, timestamp := now, actor := actor, action := action,
      entity := entity, entity_id := entity_id }
  ledger ++ [{ sequence := sequence, timestamp := now, actor := actor, action := action,
               entity := entity, entity_id := entity_id, prev_digest := prev_digest,
               self_digest := E.digest fields prev_digest }]

/-- Modelled from the spec: the scan of section 4.3 from a given
`expected_prev` and `previous_sequence`: (a) the recomputed digest must equal
the stored `self_digest`, (c) `prev_digest` must equal `expected_prev`,
(d) the sequence must be the previous one plus one; the first failure stops
the scan with the offending sequence. -/
def verifyFrom {D : Type} [DecidableEq D] (E : DigestEngine D) :
    D → Nat → List (ChainEntry D) → VerificationResult
  | _, _, [] => { ok := true, first_broken_sequence := none }
  | expected_prev, previous_sequence, e :: rest =>
    if E.digest e.fields expected_prev ≠ e.self_digest then
      { ok := false, first_broken_sequence := some e.sequence }
    else if e.prev_digest ≠ expected_prev then
      { ok := false, first_broken_sequence := some e.sequence }
    else if e.sequence ≠ previous_sequence + 1 then
      { ok := false, first_broken_sequence := some e.sequence }
    else verifyFrom E e.self_digest e.sequence rest

/-- Modelled from the spec: the stored function `audit_verify_chain()` that
`verifyChain` calls (absent from `main.cpp`), as the ChainVerifier of
section 4.3: the entries are streamed in ascending sequence order, starting
from the genesis value. -/
def audit_verify_chain {D : Type} [DecidableEq D] (E : DigestEngine D)
    (ledger : List (ChainEntry D)) : VerificationResult :=
  verifyFrom E E.genesis 0 (read_all ledger)

/-! ## A concrete collision-free engine -/

/-- Digest values of the symbolic engine: the genesis value, or the record of
exactly what was digested. -/
inductive SymDigest where
  | genesis : SymDigest
  | link : EntryFields → SymDigest → SymDigest
  deriving DecidableEq

/-- The symbolic engine: a digest is the record of its inputs. -/
def symbolic : DigestEngine SymDigest :=
  { genesis := SymDigest.genesis, digest := SymDigest.link }

/-! ## A concrete fixed-length engine -/

/-- What the database does to the transaction at hand: it goes through, or
it fails (with the message of the exception) when the transaction is opened,
when the statement is executed, or at commit. -/
inductive Fault where
  | none : Fault
  | on_begin (what : String) : Fault
  | on_exec (what : String) : Fault
  | on_commit (what : String) : Fault
  deriving DecidableEq

/-- The surroundings of one database call: the fault the database injects,
its clock and the acting user. -/
structure Env where
  fault : Fault
  now : String
  actor : String
  deriving DecidableEq

/-- The tables of the database. -/
inductive Table where
  | app_order : Table
  | audit_log : Table
  deriving DecidableEq

/-- The three statements prepared in `main`, with their arguments. -/
inductive Stmt where
  | ins_order (customer_name : String) (amount_npr : Amount) (status : String) : Stmt
  | upd_order_status (order_id : Int) (status : String) : Stmt
  | del_order (order_id : Int) : Stmt
  deriving DecidableEq

/-- The table named in the SQL text of a prepared statement: `INSERT INTO
app_order`, `UPDATE app_order`, `DELETE FROM app_order`. -/
def Stmt.target : Stmt → Table
  | Stmt.ins_order _ _ _ => Table.app_order
  | Stmt.upd_order_status _ _ => Table.app_order
  | Stmt.del_order _ => Table.app_order

/-- The business effect of a prepared statement on `app_order`, and the
`order_id` it concerns (for `ins_order`, the generated id it returns). -/
def Stmt.apply {D : Type} (c : Db D) : Stmt → Db D × Int
  | Stmt.ins_order customer_name amount_npr status =>
    let row : Order :=
      { order_id := c.next_order_id, customer_name := customer_name,
        amount_npr := amount_npr, status := status }
    ({ c with app_order := c.app_order ++ [row], next_order_id := c.next_order_id + 1 },
      c.next_order_id)
  | Stmt.upd_order_status order_id status =>
    let rows := c.app_order.map
      (fun o => if o.order_id = order_id then { o with status := status } else o)
    ({ c with app_order := rows }, order_id)
  | Stmt.del_order order_id =>
    ({ c with app_order := c.app_order.filter (fun o => o.order_id ≠ order_id) }, order_id)

/-- Modelled from the spec: the action tag under which a mutation is audited
(`create`, `update`, `delete`); the database-side code that chooses it is
absent from `main.cpp`. -/
def Stmt.action : Stmt → String
  | Stmt.ins_order _ _ _ => "create"
  | Stmt.upd_order_status _ _ => "update"
  | Stmt.del_order _ => "delete"

/-- Modelled from the spec: a statement as the database runs it (the
database-side code is absent from `main.cpp`): the business mutation, then
the audit append it triggers, `append_event(actor, action, "order", id)`,
called once per mutation inside the same unit of work. -/
def exec_statement {D : Type} (E : DigestEngine D) (env : Env) (c : Db D) (s : Stmt) :
    Db D × Int :=
  let mutated := s.apply c
  ({ mutated.1 with
      audit_log := append_event E mutated.1.audit_log env.now env.actor s.action
        "order" (toString mutated.2) }, mutated.2)

/-- What the program does on the connection, in order: the transactions it
opens, the statements and queries it sends, and how each transaction ends.
`commit` stands for a commit that went through; a transaction that ends
without one is recorded as `abort`. -/
inductive TxEvent where
  | begin_work : TxEvent
  | begin_read : TxEvent
  | statement (s : Stmt) : TxEvent
  | query (text : String) : TxEvent
  | commit : TxEvent
  | abort : TxEvent
  deriving DecidableEq

/-- The result of the three lines `pqxx::work tx{c}; tx.exec_prepared(...);
tx.commit();`: the database afterwards, the id the statement concerned, the
exception thrown if any, and what happened on the connection. -/
structure Committed (D : Type) where
  db : Db D
  id : Int
  thrown : Option String
  trace : List TxEvent

/-- The lines `pqxx::work tx{c}; tx.exec_prepared(...); tx.commit();`.  An
exception leaves the block before `commit`, the transaction object is
destroyed uncommitted and the database rolls back; a failed commit leaves the
database as it was. -/
def work_exec_commit {D : Type} (E : DigestEngine D) (c : Db D) (env : Env) (s : Stmt) :
    Committed D :=
  match env.fault with
  | Fault.on_begin what =>
    { db := c, id := 0, thrown := some what, trace := [] }
  | Fault.on_exec what =>
    { db := c, id := 0, thrown := some what,
      trace := [TxEvent.begin_work, TxEvent.statement s, TxEvent.abort] }
  | Fault.on_commit what =>
    { db := c, id := (exec_statement E env c s).2, thrown := some what,
      trace := [TxEvent.begin_work, TxEvent.statement s, TxEvent.abort] }
  | Fault.none =>
    { db := (exec_statement E env c s).1, id := (exec_statement E env c s).2,
      thrown := none,
      trace := [TxEvent.begin_work, TxEvent.statement s, TxEvent.commit] }

/-- The result of one operation of the menu: the database afterwards, what
was written to `std::cout`, the exception that left the function if any, and
what happened on the connection. -/
structure Outcome (D : Type) where
  db : Db D
  out : String
  thrown : Option String
  trace : List TxEvent

/-- The function `insertOrder`; `name`, `amount` and `status` are what was read from
`std::cin`. -/
def insertOrder {D : Type} (E : DigestEngine D) (c : Db D)
    (name : String) (amount : Amount) (status : String) (env : Env) : Outcome D :=
  let prompts := "Enter customer name: " ++ "Enter amount (NPR): " ++ "Enter status (e.g., NEW): "
  let tx := work_exec_commit E c env (Stmt.ins_order name amount status)
  match tx.thrown with
  | some what => { db := tx.db, out := prompts, thrown := some what, trace := tx.trace }
  | none =>
    { db := tx.db, out := prompts ++ "Inserted order with ID: " ++ toString tx.id ++ "\n",
      thrown := none, trace := tx.trace }

/-- The function `updateOrder`; `id` and `status` are what was read from `std::cin`. -/
def updateOrder {D : Type} (E : DigestEngine D) (c : Db D)
    (id : Int) (status : String) (env : Env) : Outcome D :=
  let prompts := "Enter order ID to update: " ++ "Enter new status: "
  let tx := work_exec_commit E c env (Stmt.upd_order_status id status)
  match tx.thrown with
  | some what => { db := tx.db, out := prompts, thrown := some what, trace := tx.trace }
  | none =>
    { db := tx.db,
      out := prompts ++ "Updated order " ++ toString id ++ " to " ++ status ++ "\n",
      thrown := none, trace := tx.trace }

/-- The function `deleteOrder`; `id` is what was read from `std::cin`. -/
def deleteOrder {D : Type} (E : DigestEngine D) (c : Db D) (id : Int) (env : Env) :
    Outcome D :=
  let prompts := "Enter order ID to delete: "
  let tx := work_exec_commit E c env (Stmt.del_order id)
  match tx.thrown with
  | some what => { db := tx.db, out := prompts, thrown := some what, trace := tx.trace }
  | none =>
    { db := tx.db, out := prompts ++ "Deleted order " ++ toString id ++ "\n",
      thrown := none, trace := tx.trace }

/-- One line of the listing: `log_id ts actor action entity entity_id`,
separated by blanks and ended by a newline. -/
def audit_line {D : Type} (row : ChainEntry D) : String :=
  toString row.sequence ++ " " ++ row.timestamp ++ " " ++ row.actor ++ " " ++ row.action
    ++ " " ++ row.entity ++ " " ++ row.entity_id ++ "\n"

/-- The rows returned by the query of `viewAuditLogs`. -/
def viewAuditLogs_rows {D : Type} (c : Db D) : List (ChainEntry D) :=
  order_by_log_id c.audit_log

/-- The function `viewAuditLogs`: a read transaction, one query, one line per row.  The
transaction is never committed, so only a failure to open it or to run the
query can throw (the columns of a stored row are taken to be non-null). -/
def viewAuditLogs {D : Type} (c : Db D) (env : Env) : Outcome D :=
  let text := "SELECT log_id, ts, actor, action, entity, entity_id FROM audit_log ORDER BY log_id"
  match env.fault with
  | Fault.on_begin what => { db := c, out := "", thrown := some what, trace := [] }
  | Fault.on_exec what =>
    { db := c, out := "", thrown := some what,
      trace := [TxEvent.begin_read, TxEvent.query text, TxEvent.abort] }
  | _ =>
    { db := c,
      out := "\nAudit log:\n" ++ String.join ((viewAuditLogs_rows c).map audit_line),
      thrown := none,
      trace := [TxEvent.begin_read, TxEvent.query text, TxEvent.abort] }

/-- What `verifyChain` prints for the row that `audit_verify_chain()` returned: only
column 0, the boolean, is read. -/
def verifyChain_report (r : VerificationResult) : String :=
  let ok := r.ok
  "\nChain OK? " ++ (if ok then "YES" else "NO") ++ "\n"

/-- The function `verifyChain`: a read transaction, the call of `audit_verify_chain()`,
and the verdict printed. -/
def verifyChain {D : Type} [DecidableEq D] (E : DigestEngine D) (c : Db D) (env : Env) :
    Outcome D :=
  let text := "SELECT * FROM audit_verify_chain()"
  match env.fault with
  | Fault.on_begin what => { db := c, out := "", thrown := some what, trace := [] }
  | Fault.on_exec what =>
    { db := c, out := "", thrown := some what,
      trace := [TxEvent.begin_read, TxEvent.query text, TxEvent.abort] }
  | _ =>
    { db := c, out := verifyChain_report (audit_verify_chain E c.audit_log),
      thrown := none,
      trace := [TxEvent.begin_read, TxEvent.query text, TxEvent.abort] }

/-- One round of the menu loop as the outside world determines it: the
choice read from `std::cin` (`none` when no number could be read), the values
the chosen operation reads, and the surroundings of its database call. -/
structure Turn where
  choice : Option Int
  name : String
  amount : Amount
  status : String
  id : Int
  env : Env
  deriving DecidableEq

/-- The menu printed at the start of every round. -/
def menu : String :=
  "\n===== MENU =====\n" ++ "1. Insert Order\n" ++ "2. Update Order Status\n"
    ++ "3. Delete Order\n" ++ "4. View Audit Logs\n" ++ "5. Verify Audit Chain\n"
    ++ "6. Quit\n" ++ "Enter your choice: "

/-- The `switch` of `main` for the choices 1 to 5 and the default. -/
def dispatch {D : Type} [DecidableEq D] (E : DigestEngine D) (c : Db D) (t : Turn)
    (choice : Int) : Outcome D :=
  if choice = 1 then insertOrder E c t.name t.amount t.status t.env
  else if choice = 2 then updateOrder E c t.id t.status t.env
  else if choice = 3 then deleteOrder E c t.id t.env
  else if choice = 4 then viewAuditLogs c t.env
  else if choice = 5 then verifyChain E c t.env
  else { db := c, out := "Invalid choice, try again.\n", thrown := none, trace := [] }

/-- A run of the program: the database at the end, what was written to
`std::cout` and `std::cerr`, the exit code (`none` while the program is still
waiting at the menu), and what happened on the connection. -/
structure Run (D : Type) where
  db : Db D
  out : String
  err : String
  exit_code : Option Int
  trace : List TxEvent

/-- The menu loop of `main` over the rounds the outside world provides.  Choice
6 returns 0; an exception leaves the loop for the `catch`, which prints the
message to `std::cerr` and returns 1. -/
def main_loop {D : Type} [DecidableEq D] (E : DigestEngine D) : Db D → List Turn → Run D
  | c, [] => { db := c, out := "", err := "", exit_code := none, trace := [] }
  | c, t :: rest =>
    match t.choice with
    | none =>
      let r := main_loop E c rest
      { r with out := menu ++ "Invalid input. Try again.\n" ++ r.out }
    | some choice =>
      if choice = 6 then
        { db := c, out := menu ++ "Exiting...\n", err := "", exit_code := some 0, trace := [] }
      else
        let o := dispatch E c t choice
        match o.thrown with
        | some what =>
          { db := o.db, out := menu ++ o.out, err := "Error: " ++ what ++ "\n",
            exit_code := some 1, trace := o.trace }
        | none =>
          let r := main_loop E o.db rest
          { r with out := menu ++ o.out ++ r.out, trace := o.trace ++ r.trace }

/-- The database when the input has been consumed, the program having started
on the given database. -/
def final_db {D : Type} [DecidableEq D] (E : DigestEngine D) (c : Db D)
    (turns : List Turn) : Db D :=
  (main_loop E c turns).db

/-! ## Tampering with stored entries -/

/-- An overwrite of a single field of a stored entry, done directly in
storage. -/
inductive Overwrite (D : Type) where
  | sequence (n : Nat) : Overwrite D
  | timestamp (s : String) : Overwrite D
  | actor (s : String) : Overwrite D
  | action (s : String) : Overwrite D
  | entity (s : String) : Overwrite D
  | entity_id (s : String) : Overwrite D
  | prev_digest (d : D) : Overwrite D
  | self_digest (d : D) : Overwrite D
  deriving DecidableEq

/-- The entry after the overwrite. -/
def Overwrite.apply {D : Type} : Overwrite D → ChainEntry D → ChainEntry D
  | Overwrite.sequence n, e => { e with sequence := n }
  | Overwrite.timestamp s, e => { e with timestamp := s }
  | Overwrite.actor s, e => { e with actor := s }
  | Overwrite.action s, e => { e with action := s }
  | Overwrite.entity s, e => { e with entity := s }
  | Overwrite.entity_id s, e => { e with entity_id := s }
  | Overwrite.prev_digest d, e => { e with prev_digest := d }
  | Overwrite.self_digest d, e => { e with self_digest := d }

/-- The stored ledger after the overwrite of the row at position `i`. -/
def overwrite_at {D : Type} (w : Overwrite D) : Nat → List (ChainEntry D) → List (ChainEntry D)
  | _, [] => []
  | 0, e :: rest => w.apply e :: rest
  | i + 1, e :: rest => e :: overwrite_at w i rest

/-! ## The chain check on ledgers -/

section Ledger

theorem verifyFrom_cons_ok {D : Type} [DecidableEq D] (E : DigestEngine D)
    (p : D) (s : Nat) (e : ChainEntry D) (rest : List (ChainEntry D) ) :
    (verifyFrom E p s (e :: rest)).ok = true ↔
      (E.digest e.fields p = e.self_digest ∧ e.prev_digest = p ∧ e.sequence = s + 1 ∧
        (verifyFrom E e.self_digest e.sequence rest).ok = true) := by
  rw [verifyFrom]
  split_ifs with h1 h2 h3
  · simp; intro h; exact absurd h h1
  · simp; intro _ h; exact absurd h h2
  · simp; intro _ _ h; exact absurd h h3
  · simp only [ne_eq, not_not] at h1 h2 h3
    simp [h1, h2, h3]

theorem verifyFrom_ok_iff {D : Type} [DecidableEq D] (E : DigestEngine D)
    (p : D) (s : Nat) (l : List (ChainEntry D) ) :
    (verifyFrom E p s l).ok = true ↔ verifyFrom E p s l = ⟨true, none⟩ := by
  constructor
  · intro h
    induction l generalizing p s with
    | nil => rfl
    | cons e rest ih =>
      have h' := h
      rw [verifyFrom_cons_ok] at h'
      obtain ⟨h1, h2, h3, h4⟩ := h'
      rw [verifyFrom]
      simp only [ne_eq, h1, h2, h3, not_true_eq_false, if_false]
      rw [h3] at h4
      exact ih _ _ h4
  · intro h
    rw [h]

/-- A chain that verifies carries consecutive sequence numbers. -/
theorem verifyFrom_ok_sequences {D : Type} [DecidableEq D] (E : DigestEngine D)
    (p : D) (s : Nat) (l : List (ChainEntry D) )
    (h : (verifyFrom E p s l).ok = true) :
    l.map (fun e => e.sequence) = List.range' (s + 1) l.length := by
  induction l generalizing p s with
  | nil => rfl
  | cons e rest ih =>
    rw [verifyFrom_cons_ok] at h
    obtain ⟨_, _, h3, h4⟩ := h
    have := ih _ _ h4
    simp [List.range'_succ, this, h3]

theorem order_by_log_id_of_sequences {D : Type} (l : List (ChainEntry D)) (s : Nat)
    (h : l.map (fun e => e.sequence) = List.range' s l.length) :
    order_by_log_id l = l := by
  unfold order_by_log_id
  apply List.Sorted.insertionSort_eq
  have hs : List.Pairwise (fun a b : Nat => a ≤ b) (l.map (fun e => e.sequence)) := by
    rw [h]
    exact (List.pairwise_lt_range' s l.length).imp (fun h => Nat.le_of_lt h)
  exact (List.pairwise_map.mp hs)

theorem read_all_of_ok {D : Type} [DecidableEq D] (E : DigestEngine D)
    (p : D) (s : Nat) (l : List (ChainEntry D) )
    (h : (verifyFrom E p s l).ok = true) : read_all l = l :=
  order_by_log_id_of_sequences l (s + 1) (verifyFrom_ok_sequences E p s l h)

/-- Extending a verified chain by an entry that links to its tail gives a
verified chain. -/
theorem verifyFrom_snoc {D : Type} [DecidableEq D] (E : DigestEngine D)
    (p : D) (s : Nat) (l : List (ChainEntry D) ) (e : ChainEntry D)
    (h : (verifyFrom E p s l).ok = true)
    (h1 : E.digest e.fields (match l.getLast? with | none => p | some x => x.self_digest)
      = e.self_digest)
    (h2 : e.prev_digest = (match l.getLast? with | none => p | some x => x.self_digest))
    (h3 : e.sequence = (match l.getLast? with | none => s | some x => x.sequence) + 1) :
    (verifyFrom E p s (l ++ [e])).ok = true := by
  induction l generalizing p s with
  | nil =>
    simp only [List.getLast?_nil] at h1 h2 h3
    simp [verifyFrom_cons_ok, h1, h2, h3, verifyFrom]
  | cons x xs ih =>
    rw [verifyFrom_cons_ok] at h
    obtain ⟨a1, a2, a3, a4⟩ := h
    rw [List.cons_append, verifyFrom_cons_ok]
    refine ⟨a1, a2, a3, ?_⟩
    cases xs with
    | nil =>
      simp only [List.getLast?_singleton] at h1 h2 h3
      simp [verifyFrom_cons_ok, h1, h2, h3, verifyFrom]
    | cons y ys =>
      rw [List.getLast?_cons_cons] at h1 h2 h3
      apply ih _ _ a4
      · cases hl : (y :: ys).getLast? with
        | none => simp at hl
        | some z => rw [hl] at h1; exact h1
      · cases hl : (y :: ys).getLast? with
        | none => simp at hl
        | some z => rw [hl] at h2; exact h2
      · cases hl : (y :: ys).getLast? with
        | none => simp at hl
        | some z => rw [hl] at h3; exact h3

/-- An audit append on a ledger that verifies gives a ledger that verifies. -/
theorem append_event_ok {D : Type} [DecidableEq D] (E : DigestEngine D)
    (ledger : List (ChainEntry D) ) (now actor action entity entity_id : String)
    (h : (verifyFrom E E.genesis 0 ledger).ok = true) :
    (verifyFrom E E.genesis 0
      (append_event E ledger now actor action entity entity_id)).ok = true := by
  unfold append_event
  rw [read_all_of_ok E _ _ ledger h]
  apply verifyFrom_snoc E _ _ ledger _ h
  · cases ledger.getLast? <;> rfl
  · cases ledger.getLast? <;> rfl
  · cases ledger.getLast? <;> rfl

theorem append_event_length {D : Type} (E : DigestEngine D) (ledger : List (ChainEntry D))
    (now actor action entity entity_id : String) :
    (append_event E ledger now actor action entity entity_id).length = ledger.length + 1 := by
  simp [append_event]

theorem append_event_extends {D : Type} (E : DigestEngine D) (ledger : List (ChainEntry D))
    (now actor action entity entity_id : String) :
    ledger <+: append_event E ledger now actor action entity entity_id := by
  simp [append_event]

end Ledger

/-! ## Overwritten entries -/

section Tampering

end Tampering

/-! ## Runs of the program -/

section Program

theorem Stmt.apply_audit_log {D : Type} (c : Db D) (s : Stmt) :
    (s.apply c).1.audit_log = c.audit_log := by
  cases s <;> rfl

theorem exec_statement_audit_log {D : Type} (E : DigestEngine D) (env : Env) (c : Db D)
    (s : Stmt) :
    (exec_statement E env c s).1.audit_log
      = append_event E c.audit_log env.now env.actor s.action "order"
          (toString (s.apply c).2) := by
  simp [exec_statement, Stmt.apply_audit_log]

/-- The three transaction lines either leave the database as it was, without a
commit, or run the statement and commit once. -/
theorem work_exec_commit_effect {D : Type} (E : DigestEngine D) (c : Db D) (env : Env) (s : Stmt) :
    ((work_exec_commit E c env s).db = c ∧ (work_exec_commit E c env s).thrown ≠ none
        ∧ (work_exec_commit E c env s).trace.count TxEvent.commit = 0) ∨
    ((work_exec_commit E c env s).db = (exec_statement E env c s).1
        ∧ (work_exec_commit E c env s).thrown = none
        ∧ (work_exec_commit E c env s).trace.count TxEvent.commit = 1) := by
  unfold work_exec_commit
  cases env.fault <;> simp [List.count_cons]

/-- The function `insertOrder` passes on what its transaction did. -/
theorem insertOrder_tx {D : Type} (E : DigestEngine D)
    (c : Db D) (name : String) (amount : Amount) (status : String)
    (env : Env) :
    (insertOrder E c name amount status env).db
        = (work_exec_commit E c env (Stmt.ins_order name amount status)).db ∧
    (insertOrder E c name amount status env).thrown
        = (work_exec_commit E c env (Stmt.ins_order name amount status)).thrown ∧
    (insertOrder E c name amount status env).trace
        = (work_exec_commit E c env (Stmt.ins_order name amount status)).trace := by
  unfold insertOrder
  cases h : (work_exec_commit E c env (Stmt.ins_order name amount status)).thrown <;> simp [h]

/-- The function `updateOrder` passes on what its transaction did. -/
theorem updateOrder_tx {D : Type} (E : DigestEngine D)
    (c : Db D) (id : Int) (status : String) (env : Env) :
    (updateOrder E c id status env).db
        = (work_exec_commit E c env (Stmt.upd_order_status id status)).db ∧
    (updateOrder E c id status env).thrown
        = (work_exec_commit E c env (Stmt.upd_order_status id status)).thrown ∧
    (updateOrder E c id status env).trace
        = (work_exec_commit E c env (Stmt.upd_order_status id status)).trace := by
  unfold updateOrder
  cases h : (work_exec_commit E c env (Stmt.upd_order_status id status)).thrown <;> simp [h]

/-- The function `deleteOrder` passes on what its transaction did. -/
theorem deleteOrder_tx {D : Type} (E : DigestEngine D) (c : Db D) (id : Int) (env : Env) :
    (deleteOrder E c id env).db = (work_exec_commit E c env (Stmt.del_order id)).db ∧
    (deleteOrder E c id env).thrown = (work_exec_commit E c env (Stmt.del_order id)).thrown ∧
    (deleteOrder E c id env).trace = (work_exec_commit E c env (Stmt.del_order id)).trace := by
  unfold deleteOrder
  cases h : (work_exec_commit E c env (Stmt.del_order id)).thrown <;> simp [h]

/-- One round of the menu either leaves the database as it was, without a
commit, or runs one statement and commits once, without an exception. -/
theorem dispatch_effect {D : Type} [DecidableEq D] (E : DigestEngine D)
    (c : Db D) (t : Turn) (choice : Int) :
    ((dispatch E c t choice).db = c
        ∧ (dispatch E c t choice).trace.count TxEvent.commit = 0) ∨
    (∃ s, (dispatch E c t choice).db = (exec_statement E t.env c s).1
        ∧ (dispatch E c t choice).thrown = none
        ∧ (dispatch E c t choice).trace.count TxEvent.commit = 1) := by
  unfold dispatch
  split_ifs
  · obtain ⟨e1, e2, e3⟩ := insertOrder_tx E c t.name t.amount t.status t.env
    rw [e1, e2, e3]
    rcases work_exec_commit_effect E c t.env (Stmt.ins_order t.name t.amount t.status)
      with ⟨h1, _, h3⟩ | ⟨h1, h2, h3⟩
    · exact Or.inl ⟨h1, h3⟩
    · exact Or.inr ⟨_, h1, h2, h3⟩
  · obtain ⟨e1, e2, e3⟩ := updateOrder_tx E c t.id t.status t.env
    rw [e1, e2, e3]
    rcases work_exec_commit_effect E c t.env (Stmt.upd_order_status t.id t.status)
      with ⟨h1, _, h3⟩ | ⟨h1, h2, h3⟩
    · exact Or.inl ⟨h1, h3⟩
    · exact Or.inr ⟨_, h1, h2, h3⟩
  · obtain ⟨e1, e2, e3⟩ := deleteOrder_tx E c t.id t.env
    rw [e1, e2, e3]
    rcases work_exec_commit_effect E c t.env (Stmt.del_order t.id)
      with ⟨h1, _, h3⟩ | ⟨h1, h2, h3⟩
    · exact Or.inl ⟨h1, h3⟩
    · exact Or.inr ⟨_, h1, h2, h3⟩
  · left
    unfold viewAuditLogs
    cases t.env.fault <;> simp [List.count_cons]
  · left
    unfold verifyChain
    cases t.env.fault <;> simp [List.count_cons]
  · left
    simp

/-- The shape of a run after its first round: the round's effect on the
database, then either the end of the program or the run of the remaining
rounds. -/
theorem main_loop_cons {D : Type} [DecidableEq D] (E : DigestEngine D)
    (c : Db D) (t : Turn) (rest : List Turn) :
    ∃ (c' : Db D) (n : Nat),
      ((c' = c ∧ n = 0) ∨ (∃ s, c' = (exec_statement E t.env c s).1 ∧ n = 1)) ∧
      (((main_loop E c (t :: rest)).db = c'
          ∧ (main_loop E c (t :: rest)).trace.count TxEvent.commit = n) ∨
       ((main_loop E c (t :: rest)).db = (main_loop E c' rest).db
          ∧ (main_loop E c (t :: rest)).trace.count TxEvent.commit
              = n + (main_loop E c' rest).trace.count TxEvent.commit)) := by
  cases hc : t.choice with
  | none =>
    refine ⟨c, 0, Or.inl ⟨rfl, rfl⟩, Or.inr ?_⟩
    simp [main_loop, hc]
  | some choice =>
    by_cases h6 : choice = 6
    · refine ⟨c, 0, Or.inl ⟨rfl, rfl⟩, Or.inl ?_⟩
      simp [main_loop, hc, h6]
    · cases ht : (dispatch E c t choice).thrown with
      | some what =>
        rcases dispatch_effect E c t choice with ⟨h1, h3⟩ | ⟨s, _, h2, _⟩
        · refine ⟨c, 0, Or.inl ⟨rfl, rfl⟩, Or.inl ?_⟩
          simp [main_loop, hc, h6, ht, h1, h3]
        · rw [h2] at ht
          cases ht
      | none =>
        rcases dispatch_effect E c t choice with ⟨h1, h3⟩ | ⟨s, h1, _, h3⟩
        · refine ⟨c, 0, Or.inl ⟨rfl, rfl⟩, Or.inr ?_⟩
          simp [main_loop, hc, h6, ht, h1, h3, List.count_append]
        · refine ⟨_, 1, Or.inr ⟨s, rfl, rfl⟩, Or.inr ?_⟩
          simp [main_loop, hc, h6, ht, h1, h3, List.count_append]

/-- A run that starts on a ledger that verifies ends on a ledger that
verifies. -/
theorem main_loop_ok {D : Type} [DecidableEq D] (E : DigestEngine D) (c : Db D) (turns : List Turn)
    (h : (verifyFrom E E.genesis 0 c.audit_log).ok = true) :
    (verifyFrom E E.genesis 0 (main_loop E c turns).db.audit_log).ok = true := by
  induction turns generalizing c with
  | nil => simpa [main_loop] using h
  | cons t rest ih =>
    obtain ⟨c', n, hc', hrun⟩ := main_loop_cons E c t rest
    have hok' : (verifyFrom E E.genesis 0 c'.audit_log).ok = true := by
      rcases hc' with ⟨rfl, _⟩ | ⟨s, rfl, _⟩
      · exact h
      · rw [exec_statement_audit_log]
        exact append_event_ok E _ _ _ _ _ _ h
    rcases hrun with ⟨hdb, _⟩ | ⟨hdb, _⟩
    · rw [hdb]; exact hok'
    · rw [hdb]; exact ih c' hok'

/-- The ledger grows by one entry per commit. -/
theorem main_loop_length {D : Type} [DecidableEq D] (E : DigestEngine D)
    (c : Db D) (turns : List Turn) :
    (main_loop E c turns).db.audit_log.length
      = c.audit_log.length + (main_loop E c turns).trace.count TxEvent.commit := by
  induction turns generalizing c with
  | nil => simp [main_loop]
  | cons t rest ih =>
    obtain ⟨c', n, hc', hrun⟩ := main_loop_cons E c t rest
    have hlen : c'.audit_log.length = c.audit_log.length + n := by
      rcases hc' with ⟨rfl, rfl⟩ | ⟨s, rfl, rfl⟩
      · rfl
      · rw [exec_statement_audit_log, append_event_length]
    rcases hrun with ⟨hdb, htr⟩ | ⟨hdb, htr⟩
    · rw [hdb, htr, hlen]
    · rw [hdb, htr, ih c', hlen, Nat.add_assoc]

/-- The entries present at the start of a run are still there, in place, at
its end. -/
theorem main_loop_extends {D : Type} [DecidableEq D] (E : DigestEngine D)
    (c : Db D) (turns : List Turn) :
    c.audit_log <+: (main_loop E c turns).db.audit_log := by
  induction turns generalizing c with
  | nil => simp [main_loop]
  | cons t rest ih =>
    obtain ⟨c', n, hc', hrun⟩ := main_loop_cons E c t rest
    have hpre : c.audit_log <+: c'.audit_log := by
      rcases hc' with ⟨rfl, _⟩ | ⟨s, rfl, _⟩
      · exact List.prefix_refl _
      · rw [exec_statement_audit_log]
        exact append_event_extends E _ _ _ _ _ _
    rcases hrun with ⟨hdb, _⟩ | ⟨hdb, _⟩
    · rw [hdb]; exact hpre
    · rw [hdb]; exact hpre.trans (ih c')

/-- The three transaction lines throw exactly when the database fails, with
the message of that failure. -/
theorem work_exec_commit_thrown {D : Type} (E : DigestEngine D)
    (c : Db D) (env : Env) (s : Stmt) (what : String) :
    (work_exec_commit E c env s).thrown = some what ↔
      (env.fault = Fault.on_begin what ∨ env.fault = Fault.on_exec what
        ∨ env.fault = Fault.on_commit what) := by
  unfold work_exec_commit
  cases env.fault <;> simp

/-- An exception that leaves a round of the menu is a failure of the database,
with its message. -/
theorem dispatch_thrown {D : Type} [DecidableEq D] (E : DigestEngine D)
    (c : Db D) (t : Turn) (choice : Int) (what : String)
    (h : (dispatch E c t choice).thrown = some what) :
    t.env.fault = Fault.on_begin what ∨ t.env.fault = Fault.on_exec what
      ∨ t.env.fault = Fault.on_commit what := by
  unfold dispatch at h
  split_ifs at h
  · rw [(insertOrder_tx E c t.name t.amount t.status t.env).2.1] at h
    exact (work_exec_commit_thrown E c t.env _ what).mp h
  · rw [(updateOrder_tx E c t.id t.status t.env).2.1] at h
    exact (work_exec_commit_thrown E c t.env _ what).mp h
  · rw [(deleteOrder_tx E c t.id t.env).2.1] at h
    exact (work_exec_commit_thrown E c t.env _ what).mp h
  · unfold viewAuditLogs at h
    cases hf : t.env.fault <;> simp [hf] at h <;> simp [h]
  · unfold verifyChain at h
    cases hf : t.env.fault <;> simp [hf] at h <;> simp [h]

end Program

/-! ## The properties of the specification -/

section Claims

set_option maxRecDepth 8000

/-- The ledger of a run that started on the empty database verifies. -/
theorem reachable_ok {D : Type} [DecidableEq D] (E : DigestEngine D) (turns : List Turn) :
    (verifyFrom E E.genesis 0 (final_db E Db.empty turns).audit_log).ok = true :=
  main_loop_ok E Db.empty turns (by simp [Db.empty, verifyFrom])

/-- C1 (chain integrity): whatever rounds of the menu the program went
through since the empty database, with whatever failures of the database,
the chain check on the resulting ledger returns ok = true with no broken
sequence, and `verifyChain` prints the positive verdict without throwing. -/
theorem chain_integrity {D : Type} [DecidableEq D] (E : DigestEngine D)
    (turns : List Turn) (now actor : String) :
    audit_verify_chain E (final_db E Db.empty turns).audit_log = ⟨true, none⟩ ∧
    (verifyChain E (final_db E Db.empty turns) ⟨Fault.none, now, actor⟩).out
      = "\nChain OK? YES\n" ∧
    (verifyChain E (final_db E Db.empty turns) ⟨Fault.none, now, actor⟩).thrown = none := by
  have hok := reachable_ok E turns
  have hv : audit_verify_chain E (final_db E Db.empty turns).audit_log = ⟨true, none⟩ := by
    unfold audit_verify_chain
    rw [read_all_of_ok E _ _ _ hok]
    exact (verifyFrom_ok_iff E _ _ _).mp hok
  refine ⟨hv, ?_, ?_⟩
  · simp only [verifyChain, hv]
    decide
  · simp only [verifyChain]

/-- C3, as stated, fails: for a negative result `verifyChain` prints the same
text whatever the first broken sequence is (1 or 2 here), so the sequence is
not reported. -/
theorem verdict_without_sequence :
    verifyChain_report ⟨false, some 1⟩ = "\nChain OK? NO\n" ∧
    verifyChain_report ⟨false, some 2⟩ = "\nChain OK? NO\n" := by
  decide

/-- C3, amended: for every result of the chain check `verifyChain` prints
"YES" exactly when ok is true and "NO" exactly when ok is false, and it prints
nothing else: the text does not depend on the first broken sequence. -/
theorem verifyChain_reports_verdict_only {D : Type} [DecidableEq D] (E : DigestEngine D) (c : Db D)
    (now actor : String) (r : VerificationResult) :
    ((verifyChain E c ⟨Fault.none, now, actor⟩).out
        = verifyChain_report (audit_verify_chain E c.audit_log)) ∧
    (verifyChain_report r = "\nChain OK? YES\n" ↔ r.ok = true) ∧
    (verifyChain_report r = "\nChain OK? NO\n" ↔ r.ok = false) ∧
    (∀ k, verifyChain_report ⟨r.ok, k⟩ = verifyChain_report r) := by
  refine ⟨rfl, ?_, ?_, fun _ => rfl⟩
  · cases h : r.ok <;> simp [verifyChain_report, h]
  · cases h : r.ok <;> simp [verifyChain_report, h]

/-- C4 (ordered, complete listing): after a run from the empty database with
N commits, that is N successful appends, the query of `viewAuditLogs` returns
the N stored entries, their sequences are 1..N in this order, and the output
is the header followed by one line per entry made of sequence, timestamp,
actor, action, entity and entity_id, separated by blanks. -/
theorem listing_complete {D : Type} [DecidableEq D] (E : DigestEngine D)
    (turns : List Turn) (now actor : String) :
    viewAuditLogs_rows (final_db E Db.empty turns)
      = (final_db E Db.empty turns).audit_log ∧
    (viewAuditLogs_rows (final_db E Db.empty turns)).length
      = (main_loop E Db.empty turns).trace.count TxEvent.commit ∧
    (viewAuditLogs_rows (final_db E Db.empty turns)).map (fun row => row.sequence)
      = List.range' 1 ((main_loop E Db.empty turns).trace.count TxEvent.commit) ∧
    (viewAuditLogs (final_db E Db.empty turns) ⟨Fault.none, now, actor⟩).out
      = "\nAudit log:\n" ++ String.join
          ((viewAuditLogs_rows (final_db E Db.empty turns)).map
            (fun row => toString row.sequence ++ " " ++ row.timestamp ++ " " ++ row.actor
              ++ " " ++ row.action ++ " " ++ row.entity ++ " " ++ row.entity_id ++ "\n")) := by
  have hok := reachable_ok E turns
  have hseq := verifyFrom_ok_sequences E _ _ _ hok
  have hrows : viewAuditLogs_rows (final_db E Db.empty turns)
      = (final_db E Db.empty turns).audit_log :=
    order_by_log_id_of_sequences _ 1 hseq
  have hlen : (final_db E Db.empty turns).audit_log.length
      = (main_loop E Db.empty turns).trace.count TxEvent.commit := by
    have := main_loop_length E Db.empty turns
    simpa [Db.empty, final_db] using this
  refine ⟨hrows, ?_, ?_, rfl⟩
  · rw [hrows, hlen]
  · rw [hrows, ← hlen]
    exact hseq

/-- C5 (append-only ledger): whatever the round of the menu and the prior
database, the entries already in `audit_log` are still there afterwards, in
place and unchanged, also after any number of rounds; `viewAuditLogs` and
`verifyChain` leave the whole database as it was and open no read-write
transaction; and every prepared statement names `app_order`. -/
theorem append_only {D : Type} [DecidableEq D] (E : DigestEngine D)
    (c : Db D) (t : Turn) (choice : Int)
    (turns : List Turn) :
    c.audit_log <+: (dispatch E c t choice).db.audit_log ∧
    c.audit_log <+: (final_db E c turns).audit_log ∧
    ((viewAuditLogs c t.env).db = c ∧ TxEvent.begin_work ∉ (viewAuditLogs c t.env).trace
      ∧ TxEvent.commit ∉ (viewAuditLogs c t.env).trace) ∧
    ((verifyChain E c t.env).db = c ∧ TxEvent.begin_work ∉ (verifyChain E c t.env).trace
      ∧ TxEvent.commit ∉ (verifyChain E c t.env).trace) ∧
    (∀ s : Stmt, s.target = Table.app_order) := by
  refine ⟨?_, main_loop_extends E c turns, ?_, ?_, ?_⟩
  · rcases dispatch_effect E c t choice with ⟨h, _⟩ | ⟨s, h, _⟩
    · rw [h]
    · rw [h, exec_statement_audit_log]
      exact append_event_extends E _ _ _ _ _ _
  · unfold viewAuditLogs
    cases t.env.fault <;> simp
  · unfold verifyChain
    cases t.env.fault <;> simp
  · intro s
    cases s <;> rfl

/-- C6 (all-or-nothing on persistence failure): when the statement or the
commit of a mutating operation fails, the exception leaves the operation,
`main` prints the message to the error stream and returns 1, the database is
as it was before the operation, and there was no commit. -/
theorem persistence_failure_atomic {D : Type} [DecidableEq D] (E : DigestEngine D)
    (c : Db D) (t : Turn)
    (rest : List Turn) (choice : Int) (what : String)
    (hch : t.choice = some choice) (h123 : choice = 1 ∨ choice = 2 ∨ choice = 3)
    (hf : t.env.fault = Fault.on_exec what ∨ t.env.fault = Fault.on_commit what) :
    (dispatch E c t choice).thrown = some what ∧
    (dispatch E c t choice).db = c ∧
    TxEvent.commit ∉ (dispatch E c t choice).trace ∧
    (main_loop E c (t :: rest)).db = c ∧
    (main_loop E c (t :: rest)).err = "Error: " ++ what ++ "\n" ∧
    (main_loop E c (t :: rest)).exit_code = some 1 ∧
    TxEvent.commit ∉ (main_loop E c (t :: rest)).trace := by
  have hd : (dispatch E c t choice).thrown = some what ∧ (dispatch E c t choice).db = c ∧
      TxEvent.commit ∉ (dispatch E c t choice).trace := by
    rcases h123 with rfl | rfl | rfl
    · have hd : dispatch E c t 1 = insertOrder E c t.name t.amount t.status t.env := by
        simp [dispatch]
      obtain ⟨e1, e2, e3⟩ := insertOrder_tx E c t.name t.amount t.status t.env
      rw [hd, e1, e2, e3]
      rcases hf with hf | hf <;> simp [work_exec_commit, hf]
    · have hd : dispatch E c t 2 = updateOrder E c t.id t.status t.env := by
        simp [dispatch]
      obtain ⟨e1, e2, e3⟩ := updateOrder_tx E c t.id t.status t.env
      rw [hd, e1, e2, e3]
      rcases hf with hf | hf <;> simp [work_exec_commit, hf]
    · have hd : dispatch E c t 3 = deleteOrder E c t.id t.env := by
        simp [dispatch]
      obtain ⟨e1, e2, e3⟩ := deleteOrder_tx E c t.id t.env
      rw [hd, e1, e2, e3]
      rcases hf with hf | hf <;> simp [work_exec_commit, hf]
  obtain ⟨h1, h2, h3⟩ := hd
  have h6 : choice ≠ 6 := by rcases h123 with rfl | rfl | rfl <;> decide
  refine ⟨h1, h2, h3, ?_, ?_, ?_, ?_⟩ <;> simp [main_loop, hch, h6, h1, h2, h3]

/-- C6 at a concrete input: an insert whose commit fails on a database with
one order and one audit entry. -/
theorem persistence_failure_atomic_witness :
    (main_loop symbolic
        (final_db symbolic Db.empty [⟨some 1, "ann", 5, "NEW", 0, ⟨Fault.none, "t1", "admin"⟩⟩])
        [⟨some 1, "bob", 7, "NEW", 0, ⟨Fault.on_commit "connection lost", "t2", "admin"⟩⟩]).db
      = final_db symbolic Db.empty [⟨some 1, "ann", 5, "NEW", 0, ⟨Fault.none, "t1", "admin"⟩⟩] ∧
    (main_loop symbolic
        (final_db symbolic Db.empty [⟨some 1, "ann", 5, "NEW", 0, ⟨Fault.none, "t1", "admin"⟩⟩])
        [⟨some 1, "bob", 7, "NEW", 0, ⟨Fault.on_commit "connection lost", "t2", "admin"⟩⟩]).exit_code
      = some 1 :=
  have h := persistence_failure_atomic symbolic
    (final_db symbolic Db.empty [⟨some 1, "ann", 5, "NEW", 0, ⟨Fault.none, "t1", "admin"⟩⟩])
    ⟨some 1, "bob", 7, "NEW", 0, ⟨Fault.on_commit "connection lost", "t2", "admin"⟩⟩
    [] 1 "connection lost" rfl (Or.inl rfl) (Or.inr rfl)
  ⟨h.2.2.2.1, h.2.2.2.2.2.1⟩

/-- C7 (an integrity violation is a value): on a ledger whose chain check
yields ok = false, `verifyChain` throws nothing and prints the negative
verdict, and the menu loop goes on with the next round as if from the same
database; and on that ledger no round of the menu throws unless the database
itself fails, the message then being that of the database. -/
theorem integrity_violation_is_a_value {D : Type} [DecidableEq D] (E : DigestEngine D)
    (c : Db D) (t : Turn)
    (rest : List Turn) (h5 : t.choice = some 5) (hf : t.env.fault = Fault.none)
    (hbroken : (audit_verify_chain E c.audit_log).ok = false) :
    (verifyChain E c t.env).thrown = none ∧
    (verifyChain E c t.env).out = "\nChain OK? NO\n" ∧
    (verifyChain E c t.env).db = c ∧
    (main_loop E c (t :: rest)).db = (main_loop E c rest).db ∧
    (main_loop E c (t :: rest)).exit_code = (main_loop E c rest).exit_code ∧
    (main_loop E c (t :: rest)).err = (main_loop E c rest).err ∧
    (∀ (t' : Turn) (choice : Int), t'.env.fault = Fault.none →
      (dispatch E c t' choice).thrown = none) ∧
    (∀ (t' : Turn) (choice : Int) (what : String),
      (dispatch E c t' choice).thrown = some what →
        (t'.env.fault = Fault.on_begin what ∨ t'.env.fault = Fault.on_exec what
          ∨ t'.env.fault = Fault.on_commit what)) := by
  have hv : verifyChain E c t.env
      = { db := c, out := verifyChain_report (audit_verify_chain E c.audit_log),
          thrown := none,
          trace := [TxEvent.begin_read, TxEvent.query "SELECT * FROM audit_verify_chain()",
                    TxEvent.abort] } := by
    simp [verifyChain, hf]
  have hout : verifyChain_report (audit_verify_chain E c.audit_log) = "\nChain OK? NO\n" := by
    simp only [verifyChain_report, hbroken]
    decide
  have hd : dispatch E c t 5 = verifyChain E c t.env := by simp [dispatch]
  refine ⟨by rw [hv], by rw [hv, hout], by rw [hv], ?_, ?_, ?_, ?_, ?_⟩
  · simp [main_loop, h5, hd, hv]
  · simp [main_loop, h5, hd, hv]
  · simp [main_loop, h5, hd, hv]
  · intro t' choice hf'
    cases hthrown : (dispatch E c t' choice).thrown with
    | none => rfl
    | some what =>
      have := dispatch_thrown E c t' choice what hthrown
      simp [hf'] at this
  · intro t' choice what h
    exact dispatch_thrown E c t' choice what h

/-- C7 at a concrete input: the ledger of two inserts with the action of
entry 1 overwritten; `verifyChain` prints the negative verdict and the loop
goes on to the quit of the next round. -/
theorem integrity_violation_is_a_value_witness :
    (audit_verify_chain symbolic
      (overwrite_at (Overwrite.action "delete") 0
        (final_db symbolic Db.empty
          [⟨some 1, "ann", 5, "NEW", 0, ⟨Fault.none, "t1", "admin"⟩⟩,
           ⟨some 1, "bob", 7, "NEW", 0, ⟨Fault.none, "t2", "admin"⟩⟩]).audit_log)).ok = false ∧
    (verifyChain symbolic
      { app_order := [], next_order_id := 3,
        audit_log := overwrite_at (Overwrite.action "delete") 0
          (final_db symbolic Db.empty
            [⟨some 1, "ann", 5, "NEW", 0, ⟨Fault.none, "t1", "admin"⟩⟩,
             ⟨some 1, "bob", 7, "NEW", 0, ⟨Fault.none, "t2", "admin"⟩⟩]).audit_log }
      ⟨Fault.none, "t3", "admin"⟩).out = "\nChain OK? NO\n" ∧
    (main_loop symbolic
      { app_order := [], next_order_id := 3,
        audit_log := overwrite_at (Overwrite.action "delete") 0
          (final_db symbolic Db.empty
            [⟨some 1, "ann", 5, "NEW", 0, ⟨Fault.none, "t1", "admin"⟩⟩,
             ⟨some 1, "bob", 7, "NEW", 0, ⟨Fault.none, "t2", "admin"⟩⟩]).audit_log }
      [⟨some 5, "", 0, "", 0, ⟨Fault.none, "t3", "admin"⟩⟩,
       ⟨some 6, "", 0, "", 0, ⟨Fault.none, "t4", "admin"⟩⟩]).exit_code = some 0 :=
  have h := integrity_violation_is_a_value symbolic
    { app_order := [], next_order_id := 3,
      audit_log := overwrite_at (Overwrite.action "delete") 0
        (final_db symbolic Db.empty
          [⟨some 1, "ann", 5, "NEW", 0, ⟨Fault.none, "t1", "admin"⟩⟩,
           ⟨some 1, "bob", 7, "NEW", 0, ⟨Fault.none, "t2", "admin"⟩⟩]).audit_log }
    ⟨some 5, "", 0, "", 0, ⟨Fault.none, "t3", "admin"⟩⟩
    [⟨some 6, "", 0, "", 0, ⟨Fault.none, "t4", "admin"⟩⟩] rfl rfl (by decide)
  ⟨by decide, h.2.1, h.2.2.2.2.1.trans (by decide)⟩

/-- C8, as stated, fails: `insertOrder` given an empty customer name and an
empty status on the empty database executes its statement and commits; an
order with empty name and status is stored and an audit entry is appended. -/
theorem empty_input_accepted :
    (insertOrder symbolic Db.empty "" 0 "" ⟨Fault.none, "t1", "admin"⟩).thrown = none ∧
    (insertOrder symbolic Db.empty "" 0 "" ⟨Fault.none, "t1", "admin"⟩).trace
      = [TxEvent.begin_work, TxEvent.statement (Stmt.ins_order "" 0 ""),
         TxEvent.commit] ∧
    (insertOrder symbolic Db.empty "" 0 "" ⟨Fault.none, "t1", "admin"⟩).db.app_order
      = [⟨1, "", 0, ""⟩] ∧
    (insertOrder symbolic Db.empty "" 0 "" ⟨Fault.none, "t1", "admin"⟩).db.audit_log.length
      = 1 := by
  decide

/-- C8, amended: `insertOrder` and `updateOrder` validate nothing.  Whatever
text was read, the empty text included, the statement is executed with it,
and when the database raises no failure the transaction commits: the order
is stored (or the matching orders updated) with that text and one audit entry
is appended. -/
theorem no_validation {D : Type} (E : DigestEngine D) (c : Db D) (name status : String)
    (amount : Amount) (id : Int) (now actor : String) :
    ((insertOrder E c name amount status ⟨Fault.none, now, actor⟩).thrown = none ∧
      (insertOrder E c name amount status ⟨Fault.none, now, actor⟩).trace
        = [TxEvent.begin_work, TxEvent.statement (Stmt.ins_order name amount status),
           TxEvent.commit] ∧
      (insertOrder E c name amount status ⟨Fault.none, now, actor⟩).db.app_order
        = c.app_order ++ [⟨c.next_order_id, name, amount, status⟩] ∧
      (insertOrder E c name amount status ⟨Fault.none, now, actor⟩).db.audit_log.length
        = c.audit_log.length + 1) ∧
    ((updateOrder E c id status ⟨Fault.none, now, actor⟩).thrown = none ∧
      (updateOrder E c id status ⟨Fault.none, now, actor⟩).trace
        = [TxEvent.begin_work, TxEvent.statement (Stmt.upd_order_status id status),
           TxEvent.commit] ∧
      (updateOrder E c id status ⟨Fault.none, now, actor⟩).db.app_order
        = c.app_order.map
            (fun o => if o.order_id = id then { o with status := status } else o) ∧
      (updateOrder E c id status ⟨Fault.none, now, actor⟩).db.audit_log.length
        = c.audit_log.length + 1) := by
  constructor
  · obtain ⟨e1, e2, e3⟩ := insertOrder_tx E c name amount status ⟨Fault.none, now, actor⟩
    rw [e1, e2, e3]
    refine ⟨rfl, rfl, rfl, ?_⟩
    show (exec_statement E _ c _).1.audit_log.length = _
    rw [exec_statement_audit_log, append_event_length]
  · obtain ⟨e1, e2, e3⟩ := updateOrder_tx E c id status ⟨Fault.none, now, actor⟩
    rw [e1, e2, e3]
    refine ⟨rfl, rfl, rfl, ?_⟩
    show (exec_statement E _ c _).1.audit_log.length = _
    rw [exec_statement_audit_log, append_event_length]

/-- C10, as stated, fails: the transaction of each mutating operation holds
one statement of the program, not two, between its begin and its commit. -/
theorem one_statement_per_transaction :
    (insertOrder symbolic Db.empty "ann" 5 "NEW" ⟨Fault.none, "t1", "admin"⟩).trace
      = [TxEvent.begin_work, TxEvent.statement (Stmt.ins_order "ann" 5 "NEW"),
         TxEvent.commit] ∧
    (updateOrder symbolic Db.empty 1 "PAID" ⟨Fault.none, "t1", "admin"⟩).trace
      = [TxEvent.begin_work, TxEvent.statement (Stmt.upd_order_status 1 "PAID"),
         TxEvent.commit] ∧
    (deleteOrder symbolic Db.empty 1 ⟨Fault.none, "t1", "admin"⟩).trace
      = [TxEvent.begin_work, TxEvent.statement (Stmt.del_order 1), TxEvent.commit] := by
  decide

/-- C10, amended: each mutating operation is one transaction in which the
program sends one statement, the business mutation, and then commits once;
the audit append is the database's effect of that statement inside the same
transaction.  When the database does not fail, the operation does not throw
and the mutation and its audit entry are both in the database afterwards;
when opening the transaction, the statement or the commit fails, the
operation throws, there is no commit and the database is as it was. -/
theorem one_statement_one_commit {D : Type} (E : DigestEngine D) (c : Db D) (s : Stmt)
    (name status : String) (amount : Amount) (id : Int) (now actor what : String)
    (env : Env) :
    ((work_exec_commit E c ⟨Fault.none, now, actor⟩ s).thrown = none ∧
      (work_exec_commit E c ⟨Fault.none, now, actor⟩ s).trace
        = [TxEvent.begin_work, TxEvent.statement s, TxEvent.commit] ∧
      (work_exec_commit E c ⟨Fault.none, now, actor⟩ s).db.app_order
        = (s.apply c).1.app_order ∧
      (work_exec_commit E c ⟨Fault.none, now, actor⟩ s).db.audit_log
        = append_event E c.audit_log now actor s.action "order" (toString (s.apply c).2) ∧
      (work_exec_commit E c ⟨Fault.none, now, actor⟩ s).db.audit_log.length
        = c.audit_log.length + 1) ∧
    ((work_exec_commit E c ⟨Fault.on_begin what, now, actor⟩ s).thrown = some what ∧
      (work_exec_commit E c ⟨Fault.on_begin what, now, actor⟩ s).db = c ∧
      TxEvent.commit ∉ (work_exec_commit E c ⟨Fault.on_begin what, now, actor⟩ s).trace) ∧
    ((work_exec_commit E c ⟨Fault.on_exec what, now, actor⟩ s).thrown = some what ∧
      (work_exec_commit E c ⟨Fault.on_exec what, now, actor⟩ s).db = c ∧
      TxEvent.commit ∉ (work_exec_commit E c ⟨Fault.on_exec what, now, actor⟩ s).trace) ∧
    ((work_exec_commit E c ⟨Fault.on_commit what, now, actor⟩ s).thrown = some what ∧
      (work_exec_commit E c ⟨Fault.on_commit what, now, actor⟩ s).db = c ∧
      TxEvent.commit ∉ (work_exec_commit E c ⟨Fault.on_commit what, now, actor⟩ s).trace) ∧
    ((insertOrder E c name amount status env).db
        = (work_exec_commit E c env (Stmt.ins_order name amount status)).db ∧
      (insertOrder E c name amount status env).thrown
        = (work_exec_commit E c env (Stmt.ins_order name amount status)).thrown ∧
      (insertOrder E c name amount status env).trace
        = (work_exec_commit E c env (Stmt.ins_order name amount status)).trace) ∧
    ((updateOrder E c id status env).db
        = (work_exec_commit E c env (Stmt.upd_order_status id status)).db ∧
      (updateOrder E c id status env).thrown
        = (work_exec_commit E c env (Stmt.upd_order_status id status)).thrown ∧
      (updateOrder E c id status env).trace
        = (work_exec_commit E c env (Stmt.upd_order_status id status)).trace) ∧
    ((deleteOrder E c id env).db = (work_exec_commit E c env (Stmt.del_order id)).db ∧
      (deleteOrder E c id env).thrown
        = (work_exec_commit E c env (Stmt.del_order id)).thrown ∧
      (deleteOrder E c id env).trace
        = (work_exec_commit E c env (Stmt.del_order id)).trace) := by
  have ha := exec_statement_audit_log E ⟨Fault.none, now, actor⟩ c s
  refine ⟨⟨rfl, rfl, rfl, ha, ?_⟩, ?_, ?_, ?_, insertOrder_tx E c name amount status env,
    updateOrder_tx E c id status env, deleteOrder_tx E c id env⟩
  · show (exec_statement E _ c s).1.audit_log.length = _
    rw [ha, append_event_length]
  · simp [work_exec_commit]
  · simp [work_exec_commit]
  · simp [work_exec_commit]

end Claims

end AuditLog
